import Mathlib

/-!
Shallow embedding of the `async-cleanup` library (class-based implementation in
`src/AsyncCleanup.ts`, module-level implementation in the free-function file, and
the re-exporting `index.ts`).

Modelling conventions:
- A `CleanupListener` is identified by a `Nat` (JavaScript function identity;
  only identity matters for Set membership and removal).  Its runtime behaviour
  (return normally, throw synchronously, return a resolving promise, return a
  rejecting promise) is supplied by an environment `env : Nat → LBehavior`.
- `process`'s event-emitter state is a `World`: an ordered list of subscriptions,
  each recording the event name, the identity (`fnId`) of the subscribed function
  object, and which handler method that function object wraps.  JavaScript's
  `Function.prototype.bind` returns a *fresh* function object on every call, so
  every `.bind(this)` in the source is modelled by allocating a fresh `fnId`
  from the counter `nextFn`.  `process.removeListener(ev, f)` removes the most
  recently added subscription whose event is `ev` and whose function object is
  exactly `f` (reference equality), per Node's event-emitter semantics.
- The JS `Set<CleanupListener>` is an insertion-ordered duplicate-free list;
  `Set.add` keeps the original position of an existing element, `Set.delete`
  removes the element, iteration is in insertion order.
- The single-threaded event loop: the synchronous prefix of
  `executeCleanupListeners` (the guard, the uninstall call, the detach, and the
  loop that starts every listener) runs atomically up to the `await`; a second
  trigger can only interleave at that `await`.  We therefore split the function
  into `execSyncPhase` (everything before `await Promise.allSettled`) and
  `execSettlePhase` (the `allSettled` wait plus rejection logging).
-/

/-- The eight members of the `ExitSignal` union type. -/
inductive Sig where
  | SIGBREAK
  | SIGHUP
  | SIGINT
  | SIGTERM
  | SIGUSR2
  | SIGKILL
  | SIGQUIT
  | SIGSTOP
deriving DecidableEq, Repr

/-- Events of `process` that the interceptor touches. -/
inductive PEvent where
  | beforeExit
  | message
  | uncaughtException
  | signal (s : Sig)
deriving DecidableEq, Repr

/-- Which handler method a subscribed function object wraps. -/
inductive HKind where
  | beforeExitL
  | pm2L
  | uncaughtL
  | signalL
deriving DecidableEq, Repr

/-- One `process` event subscription: the event, the identity of the subscribed
function object, and the handler method it wraps. -/
structure Subscription where
  event : PEvent
  fnId  : Nat
  kind  : HKind
deriving DecidableEq, Repr

/-- The `process` event-emitter state plus the fresh-function-object allocator
(every `.bind` call produces a brand-new function object, modelled by drawing
from `nextFn`). -/
structure World where
  subs   : List Subscription
  nextFn : Nat
deriving DecidableEq, Repr

/-- The initial `process` state: no subscriptions. -/
def World.empty : World := ⟨[], 0⟩

/-- `process.on(ev, this.m.bind(this))`: allocates a fresh function object
wrapping handler method `k` and appends the subscription. -/
def processOn (w : World) (ev : PEvent) (k : HKind) : World :=
  { subs := w.subs ++ [⟨ev, w.nextFn, k⟩], nextFn := w.nextFn + 1 }

/-- Remove the most recently added subscription for event `ev` whose function
object is exactly `f` (Node removes the most recently added matching
instance, comparing listeners by reference). -/
def removeLastSub (subs : List Subscription) (ev : PEvent) (f : Nat) : List Subscription :=
  (subs.reverse.eraseP (fun s => s.event == ev && s.fnId == f)).reverse

/-- `process.removeListener(ev, this.m.bind(this))`: the argument is a *fresh*
bound function object (allocated here), which is then compared by reference
against the subscription list. -/
def processRemoveFresh (w : World) (ev : PEvent) : World :=
  let f := w.nextFn
  { subs := removeLastSub w.subs ev f, nextFn := w.nextFn + 1 }

/-- `AsyncCleanup.listenedSignals` (static field): the five signals subscribed
to. -/
def listenedSignals : List Sig := [.SIGBREAK, .SIGHUP, .SIGINT, .SIGTERM, .SIGUSR2]

/-- `installExitListeners` of the class: subscribes fresh bound copies of the
four handler methods for `beforeExit`, `message`, `uncaughtException`, and each
listened signal, in source order. -/
def installExitListeners (w : World) : World :=
  let w1 := processOn w .beforeExit .beforeExitL
  let w2 := processOn w1 .message .pm2L
  let w3 := processOn w2 .uncaughtException .uncaughtL
  listenedSignals.foldl (fun wa s => processOn wa (.signal s) .signalL) w3

/-- `uninstallExitListeners` of the class: calls `process.removeListener` for
the same events, but each call passes `this.m.bind(this)` — a freshly allocated
function object, not the one that `installExitListeners` subscribed. -/
def uninstallExitListeners (w : World) : World :=
  let w1 := processRemoveFresh w .beforeExit
  let w2 := processRemoveFresh w1 .message
  let w3 := processRemoveFresh w2 .uncaughtException
  listenedSignals.foldl (fun wa s => processRemoveFresh wa (.signal s)) w3

/-- `Set.add` on an insertion-ordered duplicate-free list: adding an existing
element keeps its original position. -/
def setAdd (ls : List Nat) (l : Nat) : List Nat :=
  if l ∈ ls then ls else ls ++ [l]

/-- State of one `AsyncCleanup` instance together with the `process` state it
manipulates: the optional listener set (`cleanupListeners`, `none` when the
property has been `delete`d / never created) and the `World`. -/
structure AsyncCleanup where
  cleanupListeners : Option (List Nat)
  world : World
deriving DecidableEq, Repr

/-- A fresh `AsyncCleanup` instance against a fresh `process`. -/
def AsyncCleanup.fresh : AsyncCleanup := ⟨none, World.empty⟩

/-- Result of a registration call, in a type shared by the class-based and the
module-level implementations so they can be compared: the class `add` returns a
remover bound to the listener, the module-level `addCleanupListener` returns
`undefined`. -/
inductive AddRes where
  | remover (l : Nat)
  | unit
deriving DecidableEq, Repr

/-- `AsyncCleanup.add`: installs exit listeners and creates the set on the first
registration, inserts the listener (Set semantics), and returns
`this.remove.bind(this, listener)` — a remover handle for that listener. -/
def AsyncCleanup.add (l : Nat) (s : AsyncCleanup) : AddRes × AsyncCleanup :=
  match s.cleanupListeners with
  | none =>
      (.remover l, ⟨some (setAdd [] l), installExitListeners s.world⟩)
  | some ls =>
      (.remover l, ⟨some (setAdd ls l), s.world⟩)

/-- `AsyncCleanup.remove`: returns false immediately when the set does not
exist; otherwise deletes the listener, and when the set becomes empty calls
`uninstallExitListeners` and deletes the set property.  Returns whether the
listener was registered. -/
def AsyncCleanup.remove (l : Nat) (s : AsyncCleanup) : Bool × AsyncCleanup :=
  match s.cleanupListeners with
  | none => (false, s)
  | some ls =>
      let wasRegistered : Bool := decide (l ∈ ls)
      let ls' := ls.erase l
      if ls'.isEmpty then
        (wasRegistered, ⟨none, uninstallExitListeners s.world⟩)
      else
        (wasRegistered, ⟨some ls', s.world⟩)

/-- Runtime behaviour of a cleanup listener when invoked: return `undefined`,
throw synchronously, or return a promise that later resolves or rejects. -/
inductive LBehavior where
  | retUnit
  | throws
  | asyncOk
  | asyncFail
deriving DecidableEq, Repr

/-- `listener()`: throwing behaviour surfaces as an exception (`Except.error`,
carrying the listener as the thrown error value); otherwise the call returns
either nothing or a promise.  The promise is identified by the listener that
produced it. -/
def invokeListener (env : Nat → LBehavior) (l : Nat) : Except Nat (Option Nat) :=
  match env l with
  | .retUnit => .ok none
  | .throws => .error l
  | .asyncOk => .ok (some l)
  | .asyncFail => .ok (some l)

/-- Accumulated effects of the synchronous listener loop of
`executeCleanupListeners`: which listeners were invoked (in order), which
invocations threw (each logged as `Uncaught exception during cleanup`), and
the promises pushed onto the `promises` array (in order). -/
structure LoopAcc where
  invoked : List Nat
  syncErrors : List Nat
  pending : List Nat
deriving DecidableEq, Repr

/-- The `for (const listener of listeners)` loop: each iteration invokes one
listener inside its own `try`/`catch`, so a synchronous throw is logged and the
loop continues with the remaining listeners; promise-returning invocations are
collected into `pending`. -/
def runListenerLoop (env : Nat → LBehavior) : List Nat → LoopAcc
  | [] => ⟨[], [], []⟩
  | l :: rest =>
      let tail := runListenerLoop env rest
      match invokeListener env l with
      | .error e =>
          ⟨l :: tail.invoked, e :: tail.syncErrors, tail.pending⟩
      | .ok none =>
          ⟨l :: tail.invoked, tail.syncErrors, tail.pending⟩
      | .ok (some p) =>
          ⟨l :: tail.invoked, tail.syncErrors, p :: tail.pending⟩

/-- The settled outcome of one collected promise. -/
inductive SettleRes where
  | fulfilled
  | rejected (reason : Nat)
deriving DecidableEq, Repr

/-- How one collected promise eventually settles, determined by its listener's
behaviour. -/
def settleOne (env : Nat → LBehavior) (p : Nat) : SettleRes :=
  match env p with
  | .asyncFail => .rejected p
  | _ => .fulfilled

/-- `Promise.allSettled(promises)`: waits for every collected promise and
returns the settled outcome of each, in order; it never rejects and never
short-circuits on a rejection. -/
def allSettled (env : Nat → LBehavior) (ps : List Nat) : List SettleRes :=
  ps.map (settleOne env)

/-- The loop over `allSettled`'s results: each rejected result is logged
individually (`Unhandled rejection during cleanup`, with its reason). -/
def logRejections : List SettleRes → List Nat
  | [] => []
  | .fulfilled :: rest => logRejections rest
  | .rejected r :: rest => r :: logRejections rest

/-- The synchronous prefix of `executeCleanupListeners`, which runs atomically
up to the `await Promise.allSettled(...)`: the `cleanupListeners` guard; then
the `uninstallExitListeners()` call; then the atomic detach of the listener set
(the local `listeners` binding plus `delete this.cleanupListeners`); then the
invocation loop.  Returns the updated state and, when the guard passed, the
loop's accumulated effects (`none` means the guard returned early). -/
def execSyncPhase (env : Nat → LBehavior) (s : AsyncCleanup) :
    AsyncCleanup × Option LoopAcc :=
  match s.cleanupListeners with
  | none => (s, none)
  | some ls =>
      let w := uninstallExitListeners s.world
      let detached := ls
      (⟨none, w⟩, some (runListenerLoop env detached))

/-- Everything `executeCleanupListeners` produced, observable from outside: the
resulting state, the listeners invoked in order, the sync-throw error log, the
collected promises, the rejection log, and whether `uninstallExitListeners` was
called. -/
structure ExecOut where
  state : AsyncCleanup
  invoked : List Nat
  syncErrors : List Nat
  pending : List Nat
  rejLogged : List Nat
  didUninstall : Bool
deriving DecidableEq, Repr

/-- `executeCleanupListeners`: the synchronous phase followed by awaiting
`Promise.allSettled` on the collected promises and logging each rejection.
The function itself always returns normally (a resolving promise): listener
failures are absorbed into the two logs. -/
def executeCleanupListeners (env : Nat → LBehavior) (s : AsyncCleanup) : ExecOut :=
  match execSyncPhase env s with
  | (s1, none) => ⟨s1, [], [], [], [], false⟩
  | (s1, some acc) =>
      ⟨s1, acc.invoked, acc.syncErrors, acc.pending,
        logRejections (allSettled env acc.pending), true⟩

/-- The terminal action performed after cleanup: `process.exit(code)` or
`process.kill(process.pid, sig)` (the kill targets the process's own pid). -/
inductive TermAction where
  | exit (code : Int)
  | kill (sig : Sig)
deriving DecidableEq, Repr

/-- `exitAfterCleanup(code)`: awaits `executeCleanupListeners()`, then calls
`process.exit(code)`. -/
def exitAfterCleanup (env : Nat → LBehavior) (code : Int) (s : AsyncCleanup) :
    ExecOut × TermAction :=
  (executeCleanupListeners env s, .exit code)

/-- The `code = 0` default parameter of `exitAfterCleanup`. -/
def exitAfterCleanupDefault (env : Nat → LBehavior) (s : AsyncCleanup) :
    ExecOut × TermAction :=
  exitAfterCleanup env 0 s

/-- `killAfterCleanup(signal)`: awaits `executeCleanupListeners()`, then calls
`process.kill(process.pid, signal)`. -/
def killAfterCleanup (env : Nat → LBehavior) (sig : Sig) (s : AsyncCleanup) :
    ExecOut × TermAction :=
  (executeCleanupListeners env s, .kill sig)

/-- `signalListener(signal)`: logs and fires `killAfterCleanup(signal)` with
the very signal that was received. -/
def signalListener (env : Nat → LBehavior) (sig : Sig) (s : AsyncCleanup) :
    ExecOut × TermAction :=
  killAfterCleanup env sig s

/-- `pm2ClusterShutdownListener(message)`: ignores any message other than the
literal string `shutdown`; on `shutdown` it fires `killAfterCleanup('SIGTERM')`.
`none` models the early return (no cleanup, no terminal action). -/
def pm2ClusterShutdownListener (env : Nat → LBehavior) (message : String)
    (s : AsyncCleanup) : Option (ExecOut × TermAction) :=
  if message ≠ "shutdown" then none
  else some (killAfterCleanup env .SIGTERM s)

/-- `beforeExitListener(code)`: logs and fires `exitAfterCleanup(code)`. -/
def beforeExitListener (env : Nat → LBehavior) (code : Int) (s : AsyncCleanup) :
    ExecOut × TermAction :=
  exitAfterCleanup env code s

/-- `uncaughtExceptionListener(error)`: logs and fires `exitAfterCleanup(1)`. -/
def uncaughtExceptionListener (env : Nat → LBehavior) (s : AsyncCleanup) :
    ExecOut × TermAction :=
  exitAfterCleanup env 1 s

/-!
The module-level free-function implementation.  Its handler functions are
top-level named functions — stable function objects passed directly to
`process.on`/`process.removeListener` without any `.bind` — so they are
modelled by four fixed function identities.
-/

/-- Function identity of the module-level `beforeExitListener`. -/
def mBeforeExitFn : Nat := 0

/-- Function identity of the module-level `pm2ClusterShutdownListener`. -/
def mPm2Fn : Nat := 1

/-- Function identity of the module-level `uncaughtExceptionListener`. -/
def mUncaughtFn : Nat := 2

/-- Function identity of the module-level `signalListener` (one single function
object subscribed for every listened signal). -/
def mSignalFn : Nat := 3

/-- `process.on(ev, f)` with a stable, already-existing function object. -/
def processOnStable (w : World) (ev : PEvent) (f : Nat) (k : HKind) : World :=
  { w with subs := w.subs ++ [⟨ev, f, k⟩] }

/-- Module-level `installExitListeners`: subscribes the four stable handler
functions, in source order. -/
def mInstallExitListeners (w : World) : World :=
  let w1 := processOnStable w .beforeExit mBeforeExitFn .beforeExitL
  let w2 := processOnStable w1 .message mPm2Fn .pm2L
  let w3 := processOnStable w2 .uncaughtException mUncaughtFn .uncaughtL
  listenedSignals.foldl (fun wa s => processOnStable wa (.signal s) mSignalFn .signalL) w3

/-- State of the module-level implementation: the module variable
`cleanupListeners` plus the `process` state. -/
structure ModuleState where
  cleanupListeners : Option (List Nat)
  world : World
deriving DecidableEq, Repr

/-- A fresh module (just loaded) against a fresh `process`.  The allocator
starts above the four stable handler identities. -/
def ModuleState.fresh : ModuleState := ⟨none, ⟨[], 4⟩⟩

/-- Module-level `addCleanupListener`: installs exit listeners and creates the
set on the first registration, inserts the listener, and returns `undefined`
(the function's type is `void`). -/
def addCleanupListener (l : Nat) (m : ModuleState) : AddRes × ModuleState :=
  match m.cleanupListeners with
  | none =>
      (.unit, ⟨some (setAdd [] l), mInstallExitListeners m.world⟩)
  | some ls =>
      (.unit, ⟨some (setAdd ls l), m.world⟩)

/-- Module-level `removeCleanupListener`: returns false when the set does not
exist, otherwise returns `cleanupListeners.delete(listener)`.  It never
uninstalls exit listeners and never resets the set variable, even when the set
becomes empty. -/
def removeCleanupListener (l : Nat) (m : ModuleState) : Bool × ModuleState :=
  match m.cleanupListeners with
  | none => (false, m)
  | some ls => (decide (l ∈ ls), ⟨some (ls.erase l), m.world⟩)

/-- One public registry operation, for comparing the two implementations on a
common operation sequence. -/
inductive CleanupOp where
  | add (l : Nat)
  | remove (l : Nat)
deriving DecidableEq, Repr

/-- Run a sequence of operations through the class-based implementation
(`addCleanupListener`/`removeCleanupListener` as re-exported by `index.ts`,
bound to one `AsyncCleanup` instance). -/
def classRunOps : List CleanupOp → AsyncCleanup → AsyncCleanup
  | [], s => s
  | .add l :: rest, s => classRunOps rest (AsyncCleanup.add l s).2
  | .remove l :: rest, s => classRunOps rest (AsyncCleanup.remove l s).2

/-- Run a sequence of operations through the module-level implementation. -/
def moduleRunOps : List CleanupOp → ModuleState → ModuleState
  | [], m => m
  | .add l :: rest, m => moduleRunOps rest (addCleanupListener l m).2
  | .remove l :: rest, m => moduleRunOps rest (removeCleanupListener l m).2

/-- The listener set currently registered, viewed as a list (`none` reads as
the empty set). -/
def optList : Option (List Nat) → List Nat
  | none => []
  | some ls => ls

/-- The registered listener set is duplicate-free (true of every reachable
state, since the JS `Set` cannot hold duplicates). -/
def acNodup (s : AsyncCleanup) : Prop :=
  (optList s.cleanupListeners).Nodup

/-- Listener behaviours used in concrete evaluations: listener 0 throws
synchronously, listener 1 returns a resolving promise, listener 2 returns a
rejecting promise, every other listener returns `undefined`. -/
def envDemo : Nat → LBehavior := fun l =>
  if l = 0 then .throws else if l = 1 then .asyncOk else
  if l = 2 then .asyncFail else .retUnit

/-- Listener behaviour where every listener returns `undefined`. -/
def envUnit : Nat → LBehavior := fun _ => .retUnit

/-!  Helper lemmas about the listener loop and the execution protocol. -/

theorem setAdd_of_mem {ls : List Nat} {l : Nat} (h : l ∈ ls) : setAdd ls l = ls := by
  simp [setAdd, h]

theorem runListenerLoop_invoked (env : Nat → LBehavior) (ls : List Nat) :
    (runListenerLoop env ls).invoked = ls := by
  induction ls with
  | nil => rfl
  | cons l rest ih =>
      cases hb : env l <;>
        simp [runListenerLoop, invokeListener, hb, ih]

theorem runListenerLoop_syncErrors (env : Nat → LBehavior) (ls : List Nat) :
    (runListenerLoop env ls).syncErrors
      = ls.filter (fun l => decide (env l = LBehavior.throws)) := by
  induction ls with
  | nil => rfl
  | cons l rest ih =>
      cases hb : env l <;>
        simp [runListenerLoop, invokeListener, hb, ih, List.filter_cons]

theorem runListenerLoop_pending (env : Nat → LBehavior) (ls : List Nat) :
    (runListenerLoop env ls).pending
      = ls.filter
          (fun l => decide (env l = LBehavior.asyncOk) || decide (env l = LBehavior.asyncFail)) := by
  induction ls with
  | nil => rfl
  | cons l rest ih =>
      cases hb : env l <;>
        simp [runListenerLoop, invokeListener, hb, ih, List.filter_cons]

theorem logRejections_allSettled (env : Nat → LBehavior) (ps : List Nat) :
    logRejections (allSettled env ps)
      = ps.filter (fun l => decide (env l = LBehavior.asyncFail)) := by
  induction ps with
  | nil => rfl
  | cons p rest ih =>
      cases hb : env p <;>
        simp [allSettled, settleOne, logRejections, hb, ih, List.filter_cons] <;>
        simpa [allSettled] using ih

theorem execSyncPhase_none (env : Nat → LBehavior) (s : AsyncCleanup)
    (h : s.cleanupListeners = none) : execSyncPhase env s = (s, none) := by
  simp [execSyncPhase, h]

theorem execSyncPhase_some (env : Nat → LBehavior) (s : AsyncCleanup) (ls : List Nat)
    (h : s.cleanupListeners = some ls) :
    execSyncPhase env s
      = (⟨none, uninstallExitListeners s.world⟩, some (runListenerLoop env ls)) := by
  simp [execSyncPhase, h]

theorem exec_none (env : Nat → LBehavior) (s : AsyncCleanup)
    (h : s.cleanupListeners = none) :
    executeCleanupListeners env s = ⟨s, [], [], [], [], false⟩ := by
  simp [executeCleanupListeners, execSyncPhase_none env s h]

theorem exec_some (env : Nat → LBehavior) (s : AsyncCleanup) (ls : List Nat)
    (h : s.cleanupListeners = some ls) :
    executeCleanupListeners env s
      = ⟨⟨none, uninstallExitListeners s.world⟩,
          (runListenerLoop env ls).invoked,
          (runListenerLoop env ls).syncErrors,
          (runListenerLoop env ls).pending,
          logRejections (allSettled env (runListenerLoop env ls).pending),
          true⟩ := by
  simp [executeCleanupListeners, execSyncPhase_some env s ls h]

theorem setAdd_mem (ls : List Nat) (l : Nat) : l ∈ setAdd ls l := by
  unfold setAdd
  split <;> simp_all

theorem setAdd_nodup (ls : List Nat) (l : Nat) (h : ls.Nodup) : (setAdd ls l).Nodup := by
  unfold setAdd
  split
  · exact h
  · simp_all [List.nodup_append]

theorem add_cleanupListeners (l : Nat) (s : AsyncCleanup) :
    (AsyncCleanup.add l s).2.cleanupListeners
      = some (setAdd (optList s.cleanupListeners) l) := by
  obtain ⟨ac, w⟩ := s
  cases ac <;> simp [AsyncCleanup.add, optList]

theorem class_remove_fst (l : Nat) (s : AsyncCleanup) :
    (AsyncCleanup.remove l s).1 = decide (l ∈ optList s.cleanupListeners) := by
  obtain ⟨ac, w⟩ := s
  cases ac with
  | none => simp [AsyncCleanup.remove, optList]
  | some ls =>
      simp only [AsyncCleanup.remove, optList]
      split <;> rfl

theorem module_remove_fst (l : Nat) (m : ModuleState) :
    (removeCleanupListener l m).1 = decide (l ∈ optList m.cleanupListeners) := by
  obtain ⟨ac, w⟩ := m
  cases ac <;> simp [removeCleanupListener, optList]

theorem class_remove_optList (l : Nat) (s : AsyncCleanup) :
    optList (AsyncCleanup.remove l s).2.cleanupListeners
      = (optList s.cleanupListeners).erase l := by
  obtain ⟨ac, w⟩ := s
  cases ac with
  | none => simp [AsyncCleanup.remove, optList]
  | some ls =>
      by_cases hemp : (ls.erase l).isEmpty
      · simp [AsyncCleanup.remove, optList, hemp, List.isEmpty_iff.mp hemp]
      · simp [AsyncCleanup.remove, optList, hemp]

theorem module_remove_optList (l : Nat) (m : ModuleState) :
    optList (removeCleanupListener l m).2.cleanupListeners
      = (optList m.cleanupListeners).erase l := by
  obtain ⟨ac, w⟩ := m
  cases ac <;> simp [removeCleanupListener, optList]

theorem module_add_optList (l : Nat) (m : ModuleState) :
    optList (addCleanupListener l m).2.cleanupListeners
      = setAdd (optList m.cleanupListeners) l := by
  obtain ⟨ac, w⟩ := m
  cases ac <;> simp [addCleanupListener, optList]

theorem classRunOps_moduleRunOps_optList (ops : List CleanupOp) (s : AsyncCleanup)
    (m : ModuleState) (h : optList s.cleanupListeners = optList m.cleanupListeners) :
    optList (classRunOps ops s).cleanupListeners
      = optList (moduleRunOps ops m).cleanupListeners := by
  induction ops generalizing s m with
  | nil => exact h
  | cons op rest ih =>
      cases op with
      | add l =>
          refine ih _ _ ?_
          rw [show optList (AsyncCleanup.add l s).2.cleanupListeners
                = setAdd (optList s.cleanupListeners) l from by
              rw [add_cleanupListeners]; rfl,
            module_add_optList, h]
      | remove l =>
          refine ih _ _ ?_
          rw [class_remove_optList, module_remove_optList, h]

theorem rejections_of_loop (env : Nat → LBehavior) (ls : List Nat) :
    logRejections (allSettled env (runListenerLoop env ls).pending)
      = ls.filter (fun l => decide (env l = LBehavior.asyncFail)) := by
  induction ls with
  | nil => rfl
  | cons l rest ih =>
      cases hb : env l <;>
        simp [runListenerLoop, invokeListener, allSettled, settleOne,
          logRejections, hb, List.filter_cons] <;>
        simpa [allSettled] using ih

theorem add_add_eq_add (l : Nat) (s : AsyncCleanup) :
    (AsyncCleanup.add l (AsyncCleanup.add l s).2).2 = (AsyncCleanup.add l s).2 := by
  obtain ⟨ac, w⟩ := s
  cases ac with
  | none => simp [AsyncCleanup.add, setAdd_of_mem (setAdd_mem [] l)]
  | some ls => simp [AsyncCleanup.add, setAdd_of_mem (setAdd_mem ls l)]

/-!  The claim theorems. -/

/-- Claim C1 (the code refutes it — evaluation at the failing input): after
`installExitListeners` has run on a fresh process, `uninstallExitListeners`
leaves all eight installed subscriptions in place, because every
`process.removeListener` call receives a freshly `bind`-allocated function
object that is not reference-equal to the one `process.on` received; nothing
is unsubscribed and default handling is not restored. -/
theorem uninstall_after_install_removes_nothing :
    (uninstallExitListeners (installExitListeners World.empty)).subs
        = (installExitListeners World.empty).subs
      ∧ (installExitListeners World.empty).subs.length = 8 :=
  ⟨rfl, rfl⟩

/-- Claim C2: cleanup execution is idempotent and once-only.  On an
uninitialized registry `executeCleanupListeners` is an exact no-op; when a
listener set `ls` is registered, one execution invokes exactly `ls`, a second
execution started from the state the first one left at its `await` point
(i.e. while listeners are still mid-execution) is an exact no-op, and each
registered listener is invoked exactly once. -/
theorem cleanup_execution_once_only (env : Nat → LBehavior) (s : AsyncCleanup) :
    (s.cleanupListeners = none → executeCleanupListeners env s = ⟨s, [], [], [], [], false⟩)
    ∧ ∀ ls, s.cleanupListeners = some ls →
        (executeCleanupListeners env s).invoked = ls
        ∧ executeCleanupListeners env (execSyncPhase env s).1
            = ⟨(execSyncPhase env s).1, [], [], [], [], false⟩
        ∧ (ls.Nodup → ∀ l ∈ ls, (executeCleanupListeners env s).invoked.count l = 1) := by
  constructor
  · intro h
    exact exec_none env s h
  · intro ls h
    have hinv : (executeCleanupListeners env s).invoked = ls := by
      rw [exec_some env s ls h]
      exact runListenerLoop_invoked env ls
    refine ⟨hinv, ?_, ?_⟩
    · have h1 : (execSyncPhase env s).1.cleanupListeners = none := by
        rw [execSyncPhase_some env s ls h]
      exact exec_none env _ h1
    · intro hnd l hl
      rw [hinv]
      exact List.count_eq_one_of_mem hnd hl

/-- Witness for C2 at a concrete input: one registered listener, executed
exactly once; the re-entrant execution is a no-op. -/
theorem cleanup_execution_once_only_witness :
    (executeCleanupListeners envUnit (AsyncCleanup.add 5 AsyncCleanup.fresh).2).invoked = [5]
    ∧ executeCleanupListeners envUnit
          (execSyncPhase envUnit (AsyncCleanup.add 5 AsyncCleanup.fresh).2).1
        = ⟨(execSyncPhase envUnit (AsyncCleanup.add 5 AsyncCleanup.fresh).2).1,
            [], [], [], [], false⟩
    ∧ (executeCleanupListeners envUnit
          (AsyncCleanup.add 5 AsyncCleanup.fresh).2).invoked.count 5 = 1 := by
  have h := (cleanup_execution_once_only envUnit (AsyncCleanup.add 5 AsyncCleanup.fresh).2).2
    [5] (by decide)
  exact ⟨h.1, h.2.1, h.2.2 (by decide) 5 (by decide)⟩

/-- Claim C3 (the code refutes the invariant — evaluation at the failing
input): after `add(L)` then `remove(L)` on a fresh instance the registry is
uninitialized (`cleanupListeners` is `none`), yet all eight trigger
subscriptions are still installed, because `uninstallExitListeners` passes
freshly bound function objects to `removeListener`.  The coverage half of the
claim does hold: the installed subscriptions are exactly `beforeExit`,
`message`, `uncaughtException`, and the five listened signals — never
`SIGKILL`, `SIGQUIT` or `SIGSTOP`. -/
theorem registry_inactive_yet_still_intercepting :
    (classRunOps [.add 0, .remove 0] AsyncCleanup.fresh).cleanupListeners = none
    ∧ (classRunOps [.add 0, .remove 0] AsyncCleanup.fresh).world.subs.map Subscription.event
        = [.beforeExit, .message, .uncaughtException,
            .signal .SIGBREAK, .signal .SIGHUP, .signal .SIGINT,
            .signal .SIGTERM, .signal .SIGUSR2]
    ∧ (classRunOps [.add 0, .remove 0] AsyncCleanup.fresh).world.subs ≠ [] :=
  ⟨rfl, rfl, by decide⟩

/-- Claim C4: during cleanup execution every listener of the detached set is
invoked exactly once, in registration order; a synchronous throw is logged
(`Uncaught exception during cleanup`) and does not prevent any later listener
from being invoked — the invocation list is the whole set regardless of
behaviours. -/
theorem cleanup_invokes_in_order_isolating_throws (env : Nat → LBehavior)
    (s : AsyncCleanup) (ls : List Nat) (h : s.cleanupListeners = some ls) :
    (executeCleanupListeners env s).invoked = ls
    ∧ (executeCleanupListeners env s).syncErrors
        = ls.filter (fun l => decide (env l = LBehavior.throws))
    ∧ (ls.Nodup → ∀ l ∈ ls, (executeCleanupListeners env s).invoked.count l = 1) := by
  rw [exec_some env s ls h]
  refine ⟨runListenerLoop_invoked env ls, runListenerLoop_syncErrors env ls, ?_⟩
  intro hnd l hl
  rw [runListenerLoop_invoked env ls]
  exact List.count_eq_one_of_mem hnd hl

/-- Witness for C4 at a concrete input: listener 0 throws, listeners 1 and 3
still run after it, in order. -/
theorem cleanup_invokes_in_order_isolating_throws_witness :
    (executeCleanupListeners envDemo
        (classRunOps [.add 0, .add 1, .add 3] AsyncCleanup.fresh)).invoked = [0, 1, 3]
    ∧ (executeCleanupListeners envDemo
        (classRunOps [.add 0, .add 1, .add 3] AsyncCleanup.fresh)).syncErrors = [0]
    ∧ (executeCleanupListeners envDemo
        (classRunOps [.add 0, .add 1, .add 3] AsyncCleanup.fresh)).invoked.count 3 = 1 := by
  have h := cleanup_invokes_in_order_isolating_throws envDemo
    (classRunOps [.add 0, .add 1, .add 3] AsyncCleanup.fresh) [0, 1, 3] (by decide)
  exact ⟨h.1, by rw [h.2.1]; decide, h.2.2 (by decide) 3 (by decide)⟩

/-- Claim C5: the protocol collects every promise returned by a listener
(both the ones that will fulfil and the ones that will reject — no
short-circuit), `Promise.allSettled` produces a settled outcome for every one
of them, each rejection is logged individually, and the protocol's own
completion is independent of listener failures (the final state is the same
under every behaviour environment). -/
theorem cleanup_settles_all_async (env : Nat → LBehavior) (s : AsyncCleanup)
    (ls : List Nat) (h : s.cleanupListeners = some ls) :
    (executeCleanupListeners env s).pending
        = ls.filter (fun l =>
            decide (env l = LBehavior.asyncOk) || decide (env l = LBehavior.asyncFail))
    ∧ (allSettled env (executeCleanupListeners env s).pending).length
        = (executeCleanupListeners env s).pending.length
    ∧ (executeCleanupListeners env s).rejLogged
        = ls.filter (fun l => decide (env l = LBehavior.asyncFail))
    ∧ ∀ env' : Nat → LBehavior,
        (executeCleanupListeners env' s).state = (executeCleanupListeners env s).state := by
  refine ⟨?_, ?_, ?_, ?_⟩
  · rw [exec_some env s ls h]
    exact runListenerLoop_pending env ls
  · simp [allSettled]
  · rw [exec_some env s ls h]
    exact rejections_of_loop env ls
  · intro env'
    rw [exec_some env s ls h, exec_some env' s ls h]

/-- Witness for C5 at a concrete input: listeners 1 (fulfils) and 2 (rejects)
are both collected, both settle, only 2 is logged as a rejection, and the
final state does not depend on the behaviours. -/
theorem cleanup_settles_all_async_witness :
    (executeCleanupListeners envDemo
        (classRunOps [.add 0, .add 1, .add 2, .add 3] AsyncCleanup.fresh)).pending = [1, 2]
    ∧ (allSettled envDemo (executeCleanupListeners envDemo
        (classRunOps [.add 0, .add 1, .add 2, .add 3] AsyncCleanup.fresh)).pending).length = 2
    ∧ (executeCleanupListeners envDemo
        (classRunOps [.add 0, .add 1, .add 2, .add 3] AsyncCleanup.fresh)).rejLogged = [2]
    ∧ (executeCleanupListeners envUnit
          (classRunOps [.add 0, .add 1, .add 2, .add 3] AsyncCleanup.fresh)).state
        = (executeCleanupListeners envDemo
          (classRunOps [.add 0, .add 1, .add 2, .add 3] AsyncCleanup.fresh)).state := by
  have h := cleanup_settles_all_async envDemo
    (classRunOps [.add 0, .add 1, .add 2, .add 3] AsyncCleanup.fresh) [0, 1, 2, 3] (by decide)
  refine ⟨by rw [h.1]; decide, ?_, by rw [h.2.2.1]; decide, h.2.2.2 envUnit⟩
  rw [h.2.1, h.1]
  decide

/-- Claim C6: registration has set semantics — a second `add` of the same
listener leaves the whole state unchanged, and triggering cleanup after two
`add`s of `L` invokes `L` exactly once. -/
theorem add_twice_invokes_once (env : Nat → LBehavior) (s : AsyncCleanup) (l : Nat)
    (hnd : acNodup s) :
    (AsyncCleanup.add l (AsyncCleanup.add l s).2).2 = (AsyncCleanup.add l s).2
    ∧ (executeCleanupListeners env
        (AsyncCleanup.add l (AsyncCleanup.add l s).2).2).invoked.count l = 1 := by
  refine ⟨add_add_eq_add l s, ?_⟩
  rw [add_add_eq_add l s, exec_some env _ _ (add_cleanupListeners l s),
    runListenerLoop_invoked]
  exact List.count_eq_one_of_mem (setAdd_nodup _ _ hnd) (setAdd_mem _ _)

/-- Witness for C6 at a concrete input: adding listener 4 twice to a fresh
instance, then executing, invokes 4 exactly once. -/
theorem add_twice_invokes_once_witness :
    (AsyncCleanup.add 4 (AsyncCleanup.add 4 AsyncCleanup.fresh).2).2
        = (AsyncCleanup.add 4 AsyncCleanup.fresh).2
    ∧ (executeCleanupListeners envUnit
        (AsyncCleanup.add 4 (AsyncCleanup.add 4 AsyncCleanup.fresh).2).2).invoked.count 4 = 1 := by
  have h := add_twice_invokes_once envUnit AsyncCleanup.fresh 4 (by unfold acNodup; decide)
  exact ⟨h.1, h.2⟩

/-- Claim C7: `remove(L)` returns true exactly when `L` is currently
registered; an immediately repeated `remove(L)` returns false; removing from an
uninitialized registry returns false and leaves the state untouched. -/
theorem remove_returns_membership (s : AsyncCleanup) (l : Nat) (hnd : acNodup s) :
    ((AsyncCleanup.remove l s).1 = true ↔ l ∈ optList s.cleanupListeners)
    ∧ (AsyncCleanup.remove l (AsyncCleanup.remove l s).2).1 = false
    ∧ (s.cleanupListeners = none → AsyncCleanup.remove l s = (false, s)) := by
  refine ⟨?_, ?_, ?_⟩
  · rw [class_remove_fst]
    simp
  · rw [class_remove_fst, class_remove_optList, decide_eq_false_iff_not]
    exact List.Nodup.not_mem_erase hnd
  · intro h
    obtain ⟨ac, w⟩ := s
    simp at h
    simp [AsyncCleanup.remove, h]

/-- Witness for C7 at a concrete input: removing a registered listener
returns true, removing it again returns false, and removing from a fresh
(uninitialized) registry returns false without side effects. -/
theorem remove_returns_membership_witness :
    (AsyncCleanup.remove 7 (AsyncCleanup.add 7 AsyncCleanup.fresh).2).1 = true
    ∧ (AsyncCleanup.remove 7
        (AsyncCleanup.remove 7 (AsyncCleanup.add 7 AsyncCleanup.fresh).2).2).1 = false
    ∧ AsyncCleanup.remove 9 AsyncCleanup.fresh = (false, AsyncCleanup.fresh) := by
  have h := remove_returns_membership (AsyncCleanup.add 7 AsyncCleanup.fresh).2 7
    (by unfold acNodup; decide)
  have h9 := remove_returns_membership AsyncCleanup.fresh 9 (by unfold acNodup; decide)
  exact ⟨h.1.mpr (by decide), h.2.1, h9.2.2 rfl⟩

/-- Claim C8: `exitAfterCleanup(code)` runs the full cleanup protocol and then
performs `process.exit(code)`; the default code is 0; with no listeners
registered the cleanup is a no-op, so no trigger-interception teardown is
attempted (`didUninstall` is false and the state is untouched). -/
theorem exitAfterCleanup_exits_with_code (env : Nat → LBehavior) (code : Int)
    (s : AsyncCleanup) :
    (exitAfterCleanup env code s).2 = TermAction.exit code
    ∧ (exitAfterCleanup env code s).1 = executeCleanupListeners env s
    ∧ exitAfterCleanupDefault env s = exitAfterCleanup env 0 s
    ∧ (s.cleanupListeners = none →
        (exitAfterCleanup env code s).1 = ⟨s, [], [], [], [], false⟩) :=
  ⟨rfl, rfl, rfl, fun h => exec_none env s h⟩

/-- Witness for C8 at the concrete input of the claim: `exitAfterCleanup(3)`
on an empty registry exits with code 3 and never calls
`uninstallExitListeners`. -/
theorem exitAfterCleanup_exits_with_code_witness :
    (exitAfterCleanup envUnit 3 AsyncCleanup.fresh).2 = TermAction.exit 3
    ∧ (exitAfterCleanup envUnit 3 AsyncCleanup.fresh).1.didUninstall = false
    ∧ (exitAfterCleanup envUnit 3 AsyncCleanup.fresh).1.state = AsyncCleanup.fresh := by
  have h := exitAfterCleanup_exits_with_code envUnit 3 AsyncCleanup.fresh
  exact ⟨h.1, by rw [h.2.2.2 rfl], by rw [h.2.2.2 rfl]⟩

/-- Claim C9: the signal handler re-raises the very signal it received via
`process.kill` on the process's own pid (never `process.exit`), and the
cluster-message handler treats exactly the literal `shutdown` as
`killAfterCleanup('SIGTERM')` while every other message has no effect. -/
theorem signal_rekill_and_pm2_shutdown (env : Nat → LBehavior) (sig : Sig)
    (s : AsyncCleanup) (msg : String) :
    signalListener env sig s = (executeCleanupListeners env s, TermAction.kill sig)
    ∧ (∀ code : Int, (signalListener env sig s).2 ≠ TermAction.exit code)
    ∧ pm2ClusterShutdownListener env "shutdown" s = some (killAfterCleanup env Sig.SIGTERM s)
    ∧ (msg ≠ "shutdown" → pm2ClusterShutdownListener env msg s = none) := by
  refine ⟨rfl, ?_, ?_, ?_⟩
  · intro code hc
    simp [signalListener, killAfterCleanup] at hc
  · simp [pm2ClusterShutdownListener]
  · intro h
    simp [pm2ClusterShutdownListener, h]

/-- Witness for C9 at concrete inputs: `SIGINT` is re-raised as `SIGINT`, the
message `hello` is ignored, and `shutdown` triggers the `SIGTERM` path. -/
theorem signal_rekill_and_pm2_shutdown_witness :
    signalListener envUnit Sig.SIGINT AsyncCleanup.fresh
        = (executeCleanupListeners envUnit AsyncCleanup.fresh, TermAction.kill Sig.SIGINT)
    ∧ pm2ClusterShutdownListener envUnit "hello" AsyncCleanup.fresh = none
    ∧ pm2ClusterShutdownListener envUnit "shutdown" AsyncCleanup.fresh
        = some (killAfterCleanup envUnit Sig.SIGTERM AsyncCleanup.fresh) := by
  have h := signal_rekill_and_pm2_shutdown envUnit Sig.SIGINT AsyncCleanup.fresh "hello"
  exact ⟨h.1, h.2.2.2 (by decide), h.2.2.1⟩

/-- Counterexample to claim C10 at concrete inputs: the class-based `add`
returns a remover handle while the module-level `addCleanupListener` returns
`undefined`; and after `add(L)`, `remove(L)`, `add(L)` the class instance has
re-installed a second batch of trigger subscriptions (16 in total, the first
batch never having been removed) while the module-level implementation still
has the original 8 — the installed states differ, because class `remove`
empties `cleanupListeners` back to uninitialized whereas module-level
`removeCleanupListener` leaves an initialized empty set and never uninstalls. -/
theorem class_module_interface_divergence :
    (AsyncCleanup.add 0 AsyncCleanup.fresh).1 = AddRes.remover 0
    ∧ (addCleanupListener 0 ModuleState.fresh).1 = AddRes.unit
    ∧ AddRes.remover 0 ≠ AddRes.unit
    ∧ (classRunOps [.add 0, .remove 0, .add 0] AsyncCleanup.fresh).world.subs.length = 16
    ∧ (moduleRunOps [.add 0, .remove 0, .add 0] ModuleState.fresh).world.subs.length = 8
    ∧ (classRunOps [.add 0, .remove 0] AsyncCleanup.fresh).cleanupListeners = none
    ∧ (moduleRunOps [.add 0, .remove 0] ModuleState.fresh).cleanupListeners = some [] :=
  ⟨rfl, rfl, by decide, rfl, rfl, rfl, rfl⟩

/-- Amended claim C10: for every common operation sequence run from fresh
states, the two implementations register the same listener set and
`removeCleanupListener` returns the same boolean; the divergences are the
return kind of `add` and the trigger-subscription/initialization state after
the last listener is removed. -/
theorem class_module_remove_boolean_agreement (ops : List CleanupOp) (l : Nat) :
    optList (classRunOps ops AsyncCleanup.fresh).cleanupListeners
      = optList (moduleRunOps ops ModuleState.fresh).cleanupListeners
    ∧ (AsyncCleanup.remove l (classRunOps ops AsyncCleanup.fresh)).1
      = (removeCleanupListener l (moduleRunOps ops ModuleState.fresh)).1 := by
  have h := classRunOps_moduleRunOps_optList ops AsyncCleanup.fresh ModuleState.fresh rfl
  exact ⟨h, by rw [class_remove_fst, module_remove_fst, h]⟩
